import Mathlib

/-!
Shallow embedding of the search-space layer in lib/spaces/basic_space.py:
the classes Space, VirtualNode, Categorical, Integer, Continuous and the
operations determined, abstract, has, random, copy and equality.

Modelling conventions:
- Python numbers are embedded as Int (int) and Rat (float); the numpy
  fixed-width scalar types are kept as separate constructors because
  Continuous.convert and Python value equality treat them specially.
- Python object identity (the id(...) builtin used for VirtualNode keys)
  is modelled by explicit id-assignment functions passed as parameters.
- Exceptions (assert, ValueError, TypeError, NameError,
  NotImplementedError) are modelled with Except PyError.
- OrderedDict is modelled as an association list in insertion order.
-/

namespace AutoDL

/-- The Python exceptions that the embedded code can raise. -/
inductive PyError where
  | valueError
  | assertionError
  | typeError
  | nameError
  | notImplError
deriving DecidableEq

mutual

/-- A Python value as it occurs in this module: a candidate of a
Categorical, the argument of has, or the payload of a VirtualNode.
vint/vfloat are native int/float; vnpFloat/vnpInt are numpy fixed-width
scalars (np.float16/32/64 and np.uint8/.../int64); vstr and vnone stand
for values outside the numeric conversion; vspace is a Space object. -/
inductive Val where
  | vint : Int → Val
  | vfloat : Rat → Val
  | vnpFloat : Rat → Val
  | vnpInt : Int → Val
  | vstr : String → Val
  | vnone : Val
  | vspace : Space → Val

/-- The Space variants of basic_space.py.
categorical carries the candidate list and the optional default index.
continuous carries lower, upper, optional default, the log flag and eps.
vnode is VirtualNode: optional id, optional wrapped value, and the
insertion-ordered mapping from child key to child space. -/
inductive Space where
  | categorical : List Val → Option Int → Space
  | continuous : Rat → Rat → Option Rat → Bool → Rat → Space
  | vnode : Option Nat → Option Val → List (Nat × Space) → Space

end

/-- The module constant _EPS = 1e-9. -/
def EPS : Rat := 1 / 1000000000

/-- True when the value is itself a Space object
(the isinstance(x, Space) test). -/
def isSpaceVal : Val → Bool
  | .vspace _ => true
  | _ => false

/-- Python numeric view of a value: int, float and the numpy scalar
types all compare equal numerically under the == operator. -/
def numVal : Val → Option Rat
  | .vint n => some (n : Rat)
  | .vfloat q => some q
  | .vnpFloat q => some q
  | .vnpInt n => some (n : Rat)
  | _ => none

/-- Python == on the concrete (non-Space) values of this model: numbers
compare numerically across int/float/numpy kinds, strings by content,
None equals None, and everything else is unequal.  A Space compared with
a non-Space yields False through the isinstance guard of its own __eq__
method, so the vspace rows return false. -/
def valEqB (a b : Val) : Bool :=
  match numVal a, numVal b with
  | some q, some r => decide (q = r)
  | _, _ =>
    match a, b with
    | .vstr s, .vstr t => decide (s = t)
    | .vnone, .vnone => true
    | _, _ => false

/-- Categorical.__init__: stores the candidates and the default index,
then asserts default is None or 0 <= default < len(candidates), then
asserts len(self) > 0.  A failed assert raises AssertionError. -/
def Categorical.init (data : List Val) (default : Option Int) :
    Except PyError Space :=
  if (match default with
      | none => true
      | some d => decide (0 ≤ d ∧ d < (data.length : Int))) then
    if data.length > 0 then .ok (.categorical data default)
    else .error .assertionError
  else .error .assertionError

/-- list(range(lower, upper + 1)) as a list of int values. -/
def rangeVals (lower upper : Int) : List Val :=
  (List.range (upper + 1 - lower).toNat).map (fun i => .vint (lower + i))

/-- Integer.__init__: both bounds are ints (guaranteed here by typing),
the candidate list is range(lower, upper + 1), and if the default is
present and outside [lower, upper] a ValueError is raised.  The line
that would re-encode the raw default as a list index sits after the
raise statement and is unreachable, so the raw default value is passed
to Categorical.__init__ as the default index. -/
def Integer.init (lower upper : Int) (default : Option Int) :
    Except PyError Space :=
  let data := rangeVals lower upper
  match default with
  | some d =>
      if d < lower ∨ d > upper then .error .valueError
      else Categorical.init data (some d)
  | none => Categorical.init data none

/-- Continuous.__init__: stores the five fields and performs no
validation, so construction never fails. -/
def Continuous.init (lower upper : Rat) (default : Option Rat)
    (log : Bool) (eps : Rat) : Except PyError Space :=
  .ok (.continuous lower upper default log eps)

/-- Space.copy: copy.deepcopy returns a structurally identical value
(a fresh object; object identity is outside this value-level model). -/
def Space.copy (s : Space) : Space := s

/-- Truthiness of the attribute access s.determined.
For Categorical and Continuous this is the bool-valued property; on a
VirtualNode the name resolves to the bound method object, which is
truthy, so the access evaluates to true without calling the method. -/
def Space.determinedAttr : Space → Bool
  | .vnode _ _ _ => true
  | .continuous l u _ _ e => decide (|l - u| ≤ e)
  | .categorical cs _ =>
      match cs with
      | [.vspace s] => s.determinedAttr
      | [_] => true
      | _ => false

/-- VirtualNode.determined, called as a method: the loop body evaluates
value.determined(x) where x is an undefined name, so the first child
raises NameError; with no children the loop is skipped and True is
returned.  (Unlike the other variants, determined here is a plain
method, not a property.) -/
def VirtualNode.determined (attrs : List (Nat × Space)) :
    Except PyError Bool :=
  match attrs with
  | [] => .ok true
  | _ :: _ => .error .nameError

/-- VirtualNode.random: raises NotImplementedError unconditionally,
whatever the recursion flag and whatever the node contains. -/
def VirtualNode.random (_recursion : Bool) (_attrs : List (Nat × Space)) :
    Except PyError Val :=
  .error .notImplError

/-- Continuous.convert: numpy fixed-width float and int scalars (their
size attribute is always 1), native int and native float convert to
float; every other type fails the conversion. -/
def Continuous.convert : Val → Option Rat
  | .vnpFloat q => some q
  | .vnpInt n => some (n : Rat)
  | .vint n => some (n : Rat)
  | .vfloat q => some q
  | _ => none

mutual

/-- Dispatch of s.has(x) over the three variants.
Categorical.has and Continuous.has first run Space.has, whose assert
rejects a Space argument; VirtualNode.has performs no such check and
just scans its children. -/
def Space.has : Space → Val → Except PyError Bool
  | .categorical cs _, x =>
      if isSpaceVal x then .error .assertionError
      else Space.catHasLoop cs x
  | .continuous l u _ _ _, x =>
      if isSpaceVal x then .error .assertionError
      else
        match Continuous.convert x with
        | some q => .ok (decide (l ≤ q) && decide (q ≤ u))
        | none => .ok false
  | .vnode _ _ attrs, x => Space.nodeHasLoop attrs x

/-- The loop of Categorical.has: a Space candidate is tried with its own
has first (errors propagate); the elif compares candidate == x, which
for a Space candidate against the non-Space x is False through the
isinstance guard, and for a concrete candidate is Python value
equality. -/
def Space.catHasLoop : List Val → Val → Except PyError Bool
  | [], _ => .ok false
  | c :: rest, x =>
      match c with
      | .vspace s =>
          match s.has x with
          | .error e => .error e
          | .ok true => .ok true
          | .ok false => Space.catHasLoop rest x
      | v => if valEqB v x then .ok true else Space.catHasLoop rest x

/-- The loop of VirtualNode.has: return True as soon as one child
contains x, propagating any error from the child. -/
def Space.nodeHasLoop : List (Nat × Space) → Val → Except PyError Bool
  | [], _ => .ok false
  | (_, s) :: rest, x =>
      match s.has x with
      | .error e => .error e
      | .ok true => .ok true
      | .ok false => Space.nodeHasLoop rest x

end

/-- Lookup in the ordered mapping of a VirtualNode:
other[key] after the membership test key in other. -/
def lookupAttr (k : Nat) : List (Nat × Space) → Option Space
  | [] => none
  | (k2, s) :: rest => if k2 = k then some s else lookupAttr k rest

mutual

/-- Dispatch of a == b over the variants, following each __eq__.
Categorical.__eq__ checks the type, the length and the default, and the
candidate loop then evaluates self.__getitem__[index], which subscripts
the bound method object and raises TypeError, so any comparison of two
same-length same-default Categoricals with at least one candidate
raises.  Continuous.__eq__ is the structural comparison of the five
fields (the identity fast path agrees with it).  VirtualNode.__eq__
walks only its own keys, requiring each to occur in the other node with
an equal child. -/
def Space.eq : Space → Space → Except PyError Bool
  | .categorical cs d, .categorical cs2 d2 =>
      if cs.length ≠ cs2.length then .ok false
      else if d ≠ d2 then .ok false
      else if cs.length = 0 then .ok true
      else .error .typeError
  | .categorical _ _, _ => .ok false
  | .continuous l u df lg e, .continuous l2 u2 df2 lg2 e2 =>
      .ok (decide (l = l2 ∧ u = u2 ∧ df = df2 ∧ lg = lg2 ∧ e = e2))
  | .continuous _ _ _ _ _, _ => .ok false
  | .vnode _ _ attrs, .vnode _ _ attrs2 => Space.nodeEqLoop attrs attrs2
  | .vnode _ _ _, _ => .ok false

/-- The loop of VirtualNode.__eq__ over self's own attributes: a key
missing from the other node, or an unequal child, returns False; child
comparisons use != and propagate errors. -/
def Space.nodeEqLoop : List (Nat × Space) → List (Nat × Space) →
    Except PyError Bool
  | [], _ => .ok true
  | (k, s) :: rest, others =>
      match lookupAttr k others with
      | none => .ok false
      | some t =>
          match s.eq t with
          | .error e => .error e
          | .ok false => .ok false
          | .ok true => Space.nodeEqLoop rest others

end

mutual

/-- Dispatch of s.abstract() over the variants, parametrised by the
id-assignment maps idS (id of a Space object) and idV (id of a raw
candidate value) standing for the id(...) builtin.
Continuous.abstract returns self.copy().  Categorical.abstract on a
determined space returns VirtualNode(id(self), self); otherwise it maps
the candidates (a Space candidate to its own abstract, a raw value to a
VirtualNode leaf keyed by the value's id) and then evaluates
Categorical(*data, self._default): the default is passed positionally,
so it lands in data as one extra raw candidate and the new default
index is None.  VirtualNode.abstract builds VirtualNode(id(self)) and,
for each child whose determined attribute is falsy, evaluates
child.abstract() and then calls node.append with a single argument,
which raises TypeError since append requires a key and a value. -/
def Space.abstract (idS : Space → Nat) (idV : Val → Nat) :
    Space → Except PyError Space
  | .continuous l u df lg e => .ok (.continuous l u df lg e)
  | .categorical cs d =>
      if (Space.categorical cs d).determinedAttr then
        .ok (.vnode (some (idS (.categorical cs d)))
              (some (.vspace (.categorical cs d))) [])
      else
        match Space.abstractList idS idV cs with
        | .error e => .error e
        | .ok data =>
            Categorical.init
              (data ++ [match d with | some n => .vint n | none => .vnone])
              none
  | .vnode i v attrs =>
      match Space.abstractNodeLoop idS idV attrs with
      | .error e => .error e
      | .ok _ => .ok (.vnode (some (idS (.vnode i v attrs))) none [])

/-- The candidate map of Categorical.abstract. -/
def Space.abstractList (idS : Space → Nat) (idV : Val → Nat) :
    List Val → Except PyError (List Val)
  | [] => .ok []
  | c :: rest =>
      match c with
      | .vspace s =>
          match s.abstract idS idV with
          | .error e => .error e
          | .ok s2 =>
              match Space.abstractList idS idV rest with
              | .error e => .error e
              | .ok tail => .ok (.vspace s2 :: tail)
      | v =>
          match Space.abstractList idS idV rest with
          | .error e => .error e
          | .ok tail =>
              .ok (.vspace (.vnode (some (idV v)) (some v) []) :: tail)

/-- The child loop of VirtualNode.abstract: a child whose determined
attribute is truthy is skipped; otherwise child.abstract() is evaluated
(its errors propagate) and the one-argument call node.append(...) then
raises TypeError. -/
def Space.abstractNodeLoop (idS : Space → Nat) (idV : Val → Nat) :
    List (Nat × Space) → Except PyError Unit
  | [] => .ok ()
  | (_, s) :: rest =>
      if s.determinedAttr then Space.abstractNodeLoop idS idV rest
      else
        match s.abstract idS idV with
        | .error e => .error e
        | .ok _ => .error .typeError

end

/-- From the spec (section 4.2): x belongs to a Categorical iff x equals
some non-Space candidate by value, or some Space candidate contains x
(recursive containment through nesting). -/
def specCategoricalMember (x : Val) (cs : List Val) : Bool :=
  cs.any fun c =>
    match c with
    | .vspace s => match s.has x with | .ok true => true | _ => false
    | v => valEqB v x

/-- The VirtualNode.has loop succeeds whenever every child's has call
succeeds. -/
theorem nodeHasLoop_ok (x : Val) :
    ∀ attrs : List (Nat × Space),
      (∀ k t, (k, t) ∈ attrs → ∃ b, Space.has t x = .ok b) →
      ∃ b, Space.nodeHasLoop attrs x = .ok b := by
  intro attrs
  induction attrs with
  | nil => exact fun _ => ⟨false, rfl⟩
  | cons p rest ih =>
      intro h
      obtain ⟨k, t⟩ := p
      obtain ⟨b, hb⟩ := h k t (List.mem_cons_self _ _)
      cases b with
      | false =>
          obtain ⟨b2, hb2⟩ := ih (fun k2 t2 ht => h k2 t2 (List.mem_cons_of_mem _ ht))
          exact ⟨b2, by simp [Space.nodeHasLoop, hb, hb2]⟩
      | true => exact ⟨true, by simp [Space.nodeHasLoop, hb]⟩

/-- The Categorical.has loop computes exactly the spec's membership
predicate, provided the nested has calls on Space candidates all
succeed. -/
theorem catHasLoop_spec (x : Val) :
    ∀ cs : List Val,
      (∀ t, Val.vspace t ∈ cs → ∃ b, Space.has t x = .ok b) →
      Space.catHasLoop cs x = .ok (specCategoricalMember x cs) := by
  intro cs
  induction cs with
  | nil => exact fun _ => rfl
  | cons c rest ih =>
      intro h
      have hrest := ih (fun t ht => h t (List.mem_cons_of_mem _ ht))
      cases c
      case vspace s =>
        obtain ⟨b, hb⟩ := h s (List.mem_cons_self _ _)
        cases b with
        | false => simpa [Space.catHasLoop, specCategoricalMember, hb] using hrest
        | true => simp [Space.catHasLoop, specCategoricalMember, hb]
      all_goals {
        simp only [Space.catHasLoop, specCategoricalMember, List.any_cons]
        split
        next hv => simp_all
        next hv => simpa [specCategoricalMember, hv] using hrest
      }

/-- Bounded recursion: has never raises once the argument is not a
Space, whatever the variant. -/
theorem has_ok_aux : ∀ n : Nat, ∀ s : Space, sizeOf s < n →
    ∀ x : Val, isSpaceVal x = false → ∃ b, Space.has s x = .ok b := by
  intro n
  induction n using Nat.strong_induction_on with
  | _ n ih =>
      intro s hs x hx
      cases s with
      | continuous l u df lg e =>
          cases hc : Continuous.convert x with
          | none => exact ⟨false, by simp [Space.has, hx, hc]⟩
          | some q =>
              exact ⟨decide (l ≤ q) && decide (q ≤ u), by simp [Space.has, hx, hc]⟩
      | vnode i v attrs =>
          have hmem : ∀ k t, (k, t) ∈ attrs → ∃ b, Space.has t x = .ok b := by
            intro k t ht
            have h1 := List.sizeOf_lt_of_mem ht
            refine ih (sizeOf (Space.vnode i v attrs)) hs t ?_ x hx
            simp only [Prod.mk.sizeOf_spec] at h1
            simp only [Space.vnode.sizeOf_spec]
            omega
          obtain ⟨b, hb⟩ := nodeHasLoop_ok x attrs hmem
          exact ⟨b, by simpa [Space.has] using hb⟩
      | categorical cs d =>
          have hmem : ∀ t, Val.vspace t ∈ cs → ∃ b, Space.has t x = .ok b := by
            intro t ht
            have h1 := List.sizeOf_lt_of_mem ht
            refine ih (sizeOf (Space.categorical cs d)) hs t ?_ x hx
            simp only [Val.vspace.sizeOf_spec] at h1
            simp only [Space.categorical.sizeOf_spec]
            omega
          refine ⟨specCategoricalMember x cs, ?_⟩
          simpa [Space.has, hx] using catHasLoop_spec x cs hmem

/-- On a non-Space argument, has returns a boolean and never raises. -/
theorem Space.has_ok (s : Space) (x : Val) (hx : isSpaceVal x = false) :
    ∃ b, Space.has s x = .ok b :=
  has_ok_aux (sizeOf s + 1) s (Nat.lt_succ_self _) x hx

/-- The VirtualNode.__eq__ loop returns True exactly when every key of
the left mapping occurs in the right mapping with an equal child. -/
theorem nodeEqLoop_char : ∀ as bs : List (Nat × Space),
    Space.nodeEqLoop as bs = .ok true ↔
      ∀ p ∈ as, ∃ c, lookupAttr p.1 bs = some c ∧ Space.eq p.2 c = .ok true := by
  intro as bs
  induction as with
  | nil => simp [Space.nodeEqLoop]
  | cons p rest ih =>
      obtain ⟨k, s⟩ := p
      cases hl : lookupAttr k bs with
      | none =>
          simp only [Space.nodeEqLoop, hl]
          constructor
          · intro h; cases h
          · intro h
            obtain ⟨c, hc, _⟩ := h (k, s) (List.mem_cons_self _ _)
            simp [hl] at hc
      | some t =>
          cases he : Space.eq s t with
          | error e =>
              simp only [Space.nodeEqLoop, hl, he]
              constructor
              · intro h; cases h
              · intro h
                obtain ⟨c, hc, hc2⟩ := h (k, s) (List.mem_cons_self _ _)
                rw [hl] at hc
                injection hc with hc
                subst hc
                simp [he] at hc2
          | ok b =>
              cases b with
              | false =>
                  simp only [Space.nodeEqLoop, hl, he]
                  constructor
                  · intro h; cases h
                  · intro h
                    obtain ⟨c, hc, hc2⟩ := h (k, s) (List.mem_cons_self _ _)
                    rw [hl] at hc
                    injection hc with hc
                    subst hc
                    simp [he] at hc2
              | true =>
                  simp only [Space.nodeEqLoop, hl, he]
                  rw [ih, List.forall_mem_cons]
                  constructor
                  · exact fun h => ⟨⟨t, hl, he⟩, h⟩
                  · exact fun h => h.2

/-- C1: the claim says Categorical.abstract on a non-determined space
keeps the candidate count and the default index.  Evaluating the
embedded code on Categorical(1, 2, default=0) instead yields a
Categorical with three candidates — the two VirtualNode leaves plus the
raw default index 0 appended by the positional call
Categorical(*data, self._default) — and default index None.  The second
conjunct checks the determined branch, which matches the claim:
Categorical(5).abstract() is a VirtualNode leaf wrapping the space. -/
theorem c1_categorical_abstract_eval :
    Space.abstract (fun _ => 0) (fun _ => 0)
        (.categorical [.vint 1, .vint 2] (some 0)) =
      .ok (.categorical [.vspace (.vnode (some 0) (some (.vint 1)) []),
        .vspace (.vnode (some 0) (some (.vint 2)) []), .vint 0] none) ∧
    Space.abstract (fun _ => 0) (fun _ => 0) (.categorical [.vint 5] none) =
      .ok (.vnode (some 0) (some (.vspace (.categorical [.vint 5] none))) []) :=
  ⟨rfl, rfl⟩

/-- C2: the claim says C.copy() == C succeeds and returns True for
every variant.  For a Categorical the embedded __eq__ reaches the
candidate loop (same length, same default) and raises TypeError,
because self.__getitem__[index] subscripts the bound method object.
For Continuous the comparison does return True as claimed. -/
theorem c2_copy_eq_eval :
    Space.eq (Space.copy (.categorical [.vint 1, .vint 2] none))
        (.categorical [.vint 1, .vint 2] none) = .error .typeError ∧
    ∀ (l u : Rat) (df : Option Rat) (lg : Bool) (e : Rat),
      Space.eq (Space.copy (.continuous l u df lg e))
        (.continuous l u df lg e) = .ok true := by
  refine ⟨rfl, fun l u df lg e => ?_⟩
  simp [Space.copy, Space.eq]

/-- C3: the claim says Integer(lower, upper, default) fails exactly when
default is outside [lower, upper], so Integer(3, 7, default=5) should
succeed.  The embedded code raises AssertionError on it: the raw
default value 5 is passed to Categorical.__init__ as the default index
and 0 <= 5 < 5 fails, since the index conversion line is placed after
the raise statement and never runs.  The other conjuncts show the parts
of the claim that do hold: out-of-range defaults raise ValueError, and
defaults valid both as a value and as an index succeed. -/
theorem c3_integer_default_eval :
    Integer.init 3 7 (some 5) = .error .assertionError ∧
    Integer.init 0 3 (some 5) = .error .valueError ∧
    Integer.init 0 3 (some 2) =
      .ok (.categorical [.vint 0, .vint 1, .vint 2, .vint 3] (some 2)) ∧
    Integer.init 3 7 none =
      .ok (.categorical [.vint 3, .vint 4, .vint 5, .vint 6, .vint 7] none) :=
  ⟨rfl, rfl, rfl, rfl⟩

/-- C4: the claim says VirtualNode.determined returns true iff every
child is determined, without raising.  The embedded method returns True
only for a childless node; with any child the loop body evaluates
value.determined(x) where x is an undefined name and raises NameError,
even when the child (here Continuous(0, 0)) is determined. -/
theorem c4_virtualnode_determined_eval :
    VirtualNode.determined [] = .ok true ∧
    VirtualNode.determined [(0, .continuous 0 0 none false EPS)] =
      .error .nameError :=
  ⟨rfl, rfl⟩

/-- C5 counterexample: the claim says has(x) fails with TypeMismatch on
every variant when x is itself a Space, but a childless VirtualNode
returns False for a Continuous argument instead of failing. -/
theorem c5_has_space_counterexample :
    Space.has (.vnode none none [])
      (.vspace (.continuous 0 1 none false EPS)) = .ok false :=
  rfl

/-- C5 amended: Categorical (hence Integer) and Continuous reject a
Space argument with the assertion in Space.has; VirtualNode.has never
performs that check and a childless node returns False. -/
theorem c5_has_space_amended (x : Space) (cs : List Val) (d : Option Int)
    (l u : Rat) (df : Option Rat) (lg : Bool) (e : Rat)
    (i : Option Nat) (v : Option Val) :
    Space.has (.categorical cs d) (.vspace x) = .error .assertionError ∧
    Space.has (.continuous l u df lg e) (.vspace x) = .error .assertionError ∧
    Space.has (.vnode i v []) (.vspace x) = .ok false :=
  ⟨rfl, rfl, rfl⟩

/-- C6: for a non-Space argument, Categorical.has returns, without
raising, exactly the spec's membership predicate: true iff x equals
some non-Space candidate by value or some Space candidate contains x
recursively. -/
theorem c6_categorical_has (cs : List Val) (d : Option Int) (x : Val)
    (hx : isSpaceVal x = false) :
    Space.has (.categorical cs d) x = .ok (specCategoricalMember x cs) := by
  have hmem : ∀ t, Val.vspace t ∈ cs → ∃ b, Space.has t x = .ok b :=
    fun t _ => Space.has_ok t x hx
  simpa [Space.has, hx] using catHasLoop_spec x cs hmem

/-- C6 witness: Categorical(Integer(0,1), Integer(2,3)).has(2) is true
and .has(5) is false, by the C6 theorem applied at those inputs. -/
theorem c6_categorical_has_witness :
    Space.has (.categorical [.vspace (.categorical [.vint 0, .vint 1] none),
        .vspace (.categorical [.vint 2, .vint 3] none)] none) (.vint 2) =
      .ok true ∧
    Space.has (.categorical [.vspace (.categorical [.vint 0, .vint 1] none),
        .vspace (.categorical [.vint 2, .vint 3] none)] none) (.vint 5) =
      .ok false :=
  ⟨(c6_categorical_has [.vspace (.categorical [.vint 0, .vint 1] none),
      .vspace (.categorical [.vint 2, .vint 3] none)] none (.vint 2) rfl).trans rfl,
   (c6_categorical_has [.vspace (.categorical [.vint 0, .vint 1] none),
      .vspace (.categorical [.vint 2, .vint 3] none)] none (.vint 5) rfl).trans rfl⟩

/-- C7: for a non-Space argument, Continuous.has first runs the
permissive numeric conversion and returns false when it fails, and
otherwise tests lower <= x <= upper with both endpoints inclusive; the
remaining conjuncts record which value kinds the conversion accepts
(numpy fixed-width floats and ints, native int, native float) and that
every other kind fails it. -/
theorem c7_continuous_has (l u : Rat) (df : Option Rat) (lg : Bool) (e : Rat)
    (x : Val) (hx : isSpaceVal x = false) :
    Space.has (.continuous l u df lg e) x =
      .ok (match Continuous.convert x with
           | some q => decide (l ≤ q ∧ q ≤ u)
           | none => false) ∧
    (∀ n : Int, Continuous.convert (.vint n) = some (n : Rat)) ∧
    (∀ q : Rat, Continuous.convert (.vfloat q) = some q) ∧
    (∀ q : Rat, Continuous.convert (.vnpFloat q) = some q) ∧
    (∀ n : Int, Continuous.convert (.vnpInt n) = some (n : Rat)) ∧
    (∀ st : String, Continuous.convert (.vstr st) = none) ∧
    Continuous.convert .vnone = none ∧
    (∀ sp : Space, Continuous.convert (.vspace sp) = none) := by
  refine ⟨?_, fun _ => rfl, fun _ => rfl, fun _ => rfl, fun _ => rfl,
    fun _ => rfl, rfl, fun _ => rfl⟩
  cases hc : Continuous.convert x with
  | none => simp [Space.has, hx, hc]
  | some q => simp [Space.has, hx, hc, Bool.decide_and]

/-- C7 witness: Continuous(0, 2).has(1) is true, by the C7 theorem
applied at that input. -/
theorem c7_continuous_has_witness :
    Space.has (.continuous 0 2 none false EPS) (.vint 1) = .ok true :=
  ((c7_continuous_has 0 2 none false EPS (.vint 1) rfl).1).trans rfl

/-- C8 counterexample: the claim says a node whose keys are a strict
subset of another's is not equal to it, but the embedded __eq__ only
walks the left node's keys: the childless node compares equal to a node
with one child, while the reverse comparison returns False — so the
relation is not symmetric either. -/
theorem c8_vnode_eq_counterexample :
    Space.eq (.vnode none none [])
      (.vnode (some 0) none [(0, .vnode none none [])]) = .ok true ∧
    Space.eq (.vnode (some 0) none [(0, .vnode none none [])])
      (.vnode none none []) = .ok false :=
  ⟨rfl, rfl⟩

/-- C8 amended: two VirtualNodes compare equal iff every key of the
left node's mapping occurs in the right node's mapping with an equal
child; extra keys on the right are ignored, so the ids play no role and
a strict-subset node compares equal to the larger one. -/
theorem c8_vnode_eq_amended (i : Option Nat) (v : Option Val) (i2 : Option Nat)
    (v2 : Option Val) (as bs : List (Nat × Space)) :
    Space.eq (.vnode i v as) (.vnode i2 v2 bs) = .ok true ↔
      ∀ p ∈ as, ∃ c, lookupAttr p.1 bs = some c ∧ Space.eq p.2 c = .ok true :=
  nodeEqLoop_char as bs

/-- C9 counterexample: the claim says has(x) is false for every x once
lower > upper, but for a Space argument has raises the TypeMismatch
assertion instead of returning False. -/
theorem c9_continuous_has_counterexample :
    Space.has (.continuous 1 0 none false EPS)
      (.vspace (.continuous 0 1 none false EPS)) = .error .assertionError :=
  rfl

/-- C9 amended: the Continuous constructor validates nothing, so every
construction succeeds — for all lower, upper, default, log flag and
eps, including lower > upper; and on such an empty interval has(x) is
false for every non-Space x. -/
theorem c9_continuous_amended (l u : Rat) (df : Option Rat) (lg : Bool)
    (e : Rat) :
    Continuous.init l u df lg e = .ok (.continuous l u df lg e) ∧
    ∀ x : Val, u < l → isSpaceVal x = false →
      Space.has (.continuous l u df lg e) x = .ok false := by
  refine ⟨rfl, fun x hlu hx => ?_⟩
  cases hc : Continuous.convert x with
  | none => simp [Space.has, hx, hc]
  | some q =>
      simp [Space.has, hx, hc]
      intro h1
      exact hlu.trans_le h1

/-- C9 witness: the amended theorem applied to Continuous(1, 0) and the
non-Space input 0. -/
theorem c9_continuous_amended_witness :
    Continuous.init 1 0 none false EPS = .ok (.continuous 1 0 none false EPS) ∧
    Space.has (.continuous 1 0 none false EPS) (.vint 0) = .ok false :=
  ⟨(c9_continuous_amended 1 0 none false EPS).1,
   (c9_continuous_amended 1 0 none false EPS).2 (.vint 0) (by norm_num) rfl⟩

/-- C10: VirtualNode.random raises NotImplementedError unconditionally,
for every recursion flag and every node content. -/
theorem c10_virtualnode_random (r : Bool) (attrs : List (Nat × Space)) :
    VirtualNode.random r attrs = .error .notImplError :=
  rfl

end AutoDL
